import Mathlib

/-!
Shallow embedding of the k8s-gsidecar synchronization engine.

The definitions below are translated from the Go sources:
  writer/file.go        (FileWriter.Init, Write, Remove, IsJSON)
  notifier/notifier.go  (HTTPNotifier.Notify request construction)
  sidecar.go            (New, Run, syncResources, RunOnce)
  kubernetes/client.go  (matchesLabel, GetConfigMaps scoping,
                         configMapInformerWorker / secretInformerWorker handlers)

The filesystem is modelled as explicit state (a set of directories and a
map from file paths to contents), Go standard library path functions
(path.Clean, path.Join, path.Dir) are modelled at character level so that
every definition is executable, and the OS calls used by the writer
(os.Stat, os.Mkdir, os.WriteFile, os.Remove) are modelled as state
transitions returning an optional error.
-/

/-- Split a character list on a separator character. Models the component
split used by Go path.Clean (and strings.Split for a one-character
separator); the result always has at least one (possibly empty) part. -/
def splitChar (sep : Char) : List Char → List (List Char)
  | [] => [[]]
  | c :: rest =>
    if c = sep then [] :: splitChar sep rest
    else
      match splitChar sep rest with
      | comp :: comps => (c :: comp) :: comps
      | [] => [[c]]

/-- One step of the lexical cleaning stack of Go path.Clean: skip empty
and dot components, resolve dot-dot against the stack (dropping it at the
root when the path is rooted), and push ordinary components. The stack is
kept in reverse order (head is the last component). -/
def cleanPush (rooted : Bool) (stack : List (List Char)) (c : List Char) : List (List Char) :=
  if c = [] ∨ c = ['.'] then stack
  else if c = ['.', '.'] then
    match stack with
    | [] => if rooted then [] else [['.', '.']]
    | top :: rest => if top = ['.', '.'] then c :: top :: rest else rest
  else c :: stack

/-- Join components with slashes (inverse of splitChar for clean parts). -/
def joinSlash : List (List Char) → List Char
  | [] => []
  | [c] => c
  | c :: rest => c ++ '/' :: joinSlash rest

/-- Model of Go path.Clean: shortest lexically equivalent path. The empty
path cleans to a dot, a rooted path keeps its leading slash, and an empty
result collapses to a dot (or a slash when rooted). -/
def Clean (p : String) : String :=
  let cs := p.data
  if cs = [] then "."
  else
    let rooted := cs.head? == some '/'
    let comps := splitChar '/' cs
    let stack := comps.foldl (cleanPush rooted) []
    let body := joinSlash stack.reverse
    if body = [] then (if rooted then "/" else ".")
    else if rooted then ⟨'/' :: body⟩ else ⟨body⟩

/-- The character prefix of a path up to and including its final slash
(empty when the path has no slash); used by the model of Go path.Dir. -/
def dirChars (cs : List Char) : List Char :=
  (cs.reverse.dropWhile (fun c => c ≠ '/')).reverse

/-- Model of Go path.Dir: everything up to the final slash, cleaned. -/
def pathDir (p : String) : String :=
  Clean ⟨dirChars p.data⟩

/-- Model of Go path.Join for two arguments: empty elements are skipped
before concatenation with a slash and the result is cleaned; the join of
two empty strings is empty. -/
def pathJoin (a b : String) : String :=
  if a = "" ∧ b = "" then ""
  else if a = "" then Clean b
  else Clean ⟨a.data ++ '/' :: b.data⟩

example : Clean "a//b" = "a/b" := by decide
example : Clean "" = "." := by decide
example : Clean "/" = "/" := by decide
example : Clean "a/" = "a" := by decide
example : Clean "/../a" = "/a" := by decide
example : Clean "a/../../b" = "../b" := by decide
example : Clean "./a/" = "a" := by decide
example : pathDir "a/b" = "a" := by decide
example : pathDir "a" = "." := by decide
example : pathDir "/a" = "/" := by decide
example : pathDir "test-nested/subfolder/deep" = "test-nested/subfolder" := by decide
example : pathJoin "a" "" = "a" := by decide
example : pathJoin "" "" = "" := by decide
example : pathJoin "a" "sub" = "a/sub" := by decide
example : pathJoin "a/" "" = "a" := by decide
example : pathJoin "." "missing.json" = "missing.json" := by decide

/-! ## Filesystem state model -/

/-- Errors surfaced by the modelled OS calls. -/
inductive IOErr where
  | enoent
  | eexist
  | eisdir
  | enotdir
  | enotempty
deriving DecidableEq

/-- Filesystem state: the set of existing directories and the existing
files with their contents, both keyed by cleaned paths. -/
structure FS where
  dirs : List String
  files : List (String × String)
deriving DecidableEq

/-- A cleaned path names an existing directory. -/
def FS.isDir (fs : FS) (q : String) : Bool :=
  fs.dirs.contains q

/-- A cleaned path names an existing file. -/
def FS.isFile (fs : FS) (q : String) : Bool :=
  (fs.files.find? (fun e => e.1 = q)).isSome

/-- Model of os.Stat existence: the path (cleaned) is a directory or a
file. -/
def FS.statExists (fs : FS) (p : String) : Bool :=
  fs.isDir (Clean p) || fs.isFile (Clean p)

/-- Model of os.Mkdir: creates a single directory level; fails when the
path already exists or when its parent directory does not exist. -/
def FS.mkdir (fs : FS) (p : String) : FS × Option IOErr :=
  let q := Clean p
  if fs.isDir q || fs.isFile q then (fs, some .eexist)
  else if fs.isFile (pathDir q) then (fs, some .enotdir)
  else if ¬ fs.isDir (pathDir q) then (fs, some .enoent)
  else ({ fs with dirs := q :: fs.dirs }, none)

/-- Model of os.WriteFile: creates or overwrites the file when the parent
directory exists and the path is not itself a directory. -/
def FS.writeFile (fs : FS) (p data : String) : FS × Option IOErr :=
  let q := Clean p
  if fs.isFile (pathDir q) then (fs, some .enotdir)
  else if ¬ fs.isDir (pathDir q) then (fs, some .enoent)
  else if fs.isDir q then (fs, some .eisdir)
  else ({ fs with files := (q, data) :: fs.files.filter (fun e => e.1 ≠ q) }, none)

/-- A directory has a child entry (used by the removal model). -/
def FS.hasChild (fs : FS) (q : String) : Bool :=
  fs.dirs.any (fun d => d ≠ q && pathDir d = q) || fs.files.any (fun e => pathDir e.1 = q)

/-- Model of os.Remove: deletes a file, or an empty directory; removing a
missing path is an error. -/
def FS.remove (fs : FS) (p : String) : FS × Option IOErr :=
  let q := Clean p
  if fs.isFile q then ({ fs with files := fs.files.filter (fun e => e.1 ≠ q) }, none)
  else if fs.isDir q then
    if fs.hasChild q then (fs, some .enotempty)
    else ({ fs with dirs := fs.dirs.filter (fun d => d ≠ q) }, none)
  else (fs, some .enoent)

/-- Content of a file at a cleaned path, when present. -/
def FS.read (fs : FS) (q : String) : Option String :=
  (fs.files.find? (fun e => e.1 = q)).map (fun e => e.2)

/-! ## writer/file.go -/

/-- FileWriter.Init from writer/file.go: when os.Stat reports the folder
missing, call os.Mkdir (one level) and ignore its error. -/
def FileWriter.Init (folder : String) (fs : FS) : FS :=
  if ¬ fs.statExists folder then (fs.mkdir folder).1 else fs

/-- FileWriter.Write from writer/file.go: Init the folder, then
os.WriteFile at path.Join folder fileName. -/
def FileWriter.Write (folder fileName data : String) (fs : FS) : FS × Option IOErr :=
  let fs1 := FileWriter.Init folder fs
  fs1.writeFile (pathJoin folder fileName) data

/-- FileWriter.Remove from writer/file.go: Init the folder, then
os.Remove at path.Join folder fileName. -/
def FileWriter.Remove (folder fileName : String) (fs : FS) : FS × Option IOErr :=
  let fs1 := FileWriter.Init folder fs
  fs1.remove (pathJoin folder fileName)

/-- FileWriter.IsJSON from writer/file.go: strings.HasSuffix on the
literal json extension. -/
def FileWriter.IsJSON (fileName : String) : Bool :=
  List.isSuffixOf ".json".data fileName.data

example : FileWriter.IsJSON "a.json" = true := by decide
example : FileWriter.IsJSON "a.yaml" = false := by decide
example : FileWriter.IsJSON "a.JSON" = false := by decide

/-- A filesystem holding only the current working directory. -/
def fsEmpty : FS := ⟨["."], []⟩

example : (FileWriter.Write "d" "a.json" "x" fsEmpty).2 = none := by decide
example : (FileWriter.Write "d" "a.json" "x" fsEmpty).1.read "d/a.json" = some "x" := by decide
example : (FileWriter.Remove "." "missing.json" fsEmpty).2 = some IOErr.enoent := by decide
example :
    (FileWriter.Write "test-nested/subfolder/deep" "test.txt" "content" fsEmpty).2
      = some IOErr.enoent := by decide

/-! ## notifier/notifier.go -/

/-- Basic authentication credentials (notifier.BasicAuth). -/
structure BasicAuth where
  Username : String
  Password : String
deriving DecidableEq

/-- notifier.HTTPNotifier: URL, method, an optional pointer to
credentials (a nil pointer is modelled as none), and the fixed payload. -/
structure HTTPNotifier where
  URL : String
  Method : String
  basicAuth : Option BasicAuth
  Payload : String
deriving DecidableEq

/-- The observable HTTP request assembled by HTTPNotifier.Notify before
it is sent: method, URL, body, and the basic credentials attached to the
Authorization header when SetBasicAuth was called. -/
structure HTTPRequest where
  method : String
  url : String
  body : String
  authHeader : Option (String × String)
deriving DecidableEq

/-- Request construction in HTTPNotifier.Notify: POST only when the
configured method is exactly POST, GET otherwise; the payload is the
body; SetBasicAuth is called exactly when the BasicAuth pointer is not
nil. -/
def HTTPNotifier.buildRequest (n : HTTPNotifier) : HTTPRequest :=
  { method := if n.Method = "POST" then "POST" else "GET"
    url := n.URL
    body := n.Payload
    authHeader := n.basicAuth.map (fun a => (a.Username, a.Password)) }

/-! ## sidecar.go New -/

/-- Notifier construction in sidecar.go New: a BasicAuth record is built
unconditionally from the environment values and its address is passed to
NewHTTPNotifier, so the pointer is never nil. -/
def SideCar.newNotifier (reqUsername reqPassword reqURL reqMethod reqPayload : String) :
    HTTPNotifier :=
  { URL := reqURL
    Method := reqMethod
    basicAuth := some { Username := reqUsername, Password := reqPassword }
    Payload := reqPayload }

/-- Namespace parsing in sidecar.go New: the empty value and the exact
value ALL give the empty namespace list; any other value is split on
commas. -/
def parseNamespaces (env : String) : List String :=
  if env = "" ∨ env = "ALL" then []
  else (splitChar ',' env.data).map (fun cs => (⟨cs⟩ : String))

/-- The scope of a list or watch session. -/
inductive ListScope where
  | clusterWide
  | perNamespace (namespaces : List String)
deriving DecidableEq

/-- Scope selection in kubernetes/client.go GetConfigMaps, GetSecrets and
the informer workers: an empty namespace list means one cluster-wide
call, otherwise one call per listed namespace. -/
def listScopeOf (namespaces : List String) : ListScope :=
  if namespaces = [] then .clusterWide else .perNamespace namespaces

/-- ASCII lowercasing of strings.ToLower as applied to the METHOD
environment value in sidecar.go New. -/
def lowerString (s : String) : String :=
  ⟨s.data.map Char.toLower⟩

/-- The observable behavior of one SideCar.Run dispatch. The invalid
method branch only emits a log record through slog Error, which does not
terminate the process, and Run then returns to main, which returns
normally, so no branch of the dispatch itself exits with a non-zero
status. -/
structure RunBehavior where
  syncsResources : Bool
  waitsForChanges : Bool
  notifiesOnce : Bool
  logsInvalidMethod : Bool
  exitsNonZero : Bool
deriving DecidableEq

/-- SideCar.Run from sidecar.go: watch and sleep sync then block waiting
for changes; list syncs and notifies once (RunOnce); every other method
logs an invalid-method error and returns. -/
def SideCar.run (method : String) : RunBehavior :=
  if method = "watch" ∨ method = "sleep" then
    { syncsResources := true, waitsForChanges := true, notifiesOnce := false
      logsInvalidMethod := false, exitsNonZero := false }
  else if method = "list" then
    { syncsResources := true, waitsForChanges := false, notifiesOnce := true
      logsInvalidMethod := false, exitsNonZero := false }
  else
    { syncsResources := false, waitsForChanges := false, notifiesOnce := false
      logsInvalidMethod := true, exitsNonZero := false }

/-! ## kubernetes/client.go -/

/-- Label matching loop body of Client.matchesLabel: scan the label
pairs; accept on an exact key match when no value is expected, or on an
exact key and value match. -/
def matchesLabelLoop (expectedLabel expectedLabelValue : String) :
    List (String × String) → Bool
  | [] => false
  | (k, v) :: rest =>
    if expectedLabelValue = "" ∧ k = expectedLabel then true
    else if k = expectedLabel ∧ v = expectedLabelValue then true
    else matchesLabelLoop expectedLabel expectedLabelValue rest

/-- Client.matchesLabel from kubernetes/client.go: accept every resource
when no label key is configured, otherwise scan the resource labels. -/
def matchesLabel (resourceLabels : List (String × String))
    (expectedLabel expectedLabelValue : String) : Bool :=
  if expectedLabel = "" then true
  else matchesLabelLoop expectedLabel expectedLabelValue resourceLabels

/-- An observed resource: labels, metadata annotations, and the data
mapping from entry names to contents (Secret byte values are modelled as
the strings they decode to, exactly as the Go code converts them). -/
structure Resource where
  labels : List (String × String)
  annots : List (String × String)
  data : List (String × String)
deriving DecidableEq

/-- Go map indexing over the annotation mapping: a missing key yields the
empty string. -/
def lookupAnnot (annots : List (String × String)) (key : String) : String :=
  match annots.find? (fun e => e.1 = key) with
  | some e => e.2
  | none => ""

/-- Target folder resolution as written in sidecar.go syncResources and
in the informer workers: keep the base folder, except when a folder
annotation key is configured, in which case join the base folder with
the value of that annotation on the resource. -/
def resolveFolder (baseFolder folderAnnot : String) (annots : List (String × String)) :
    String :=
  if folderAnnot ≠ "" then pathJoin baseFolder (lookupAnnot annots folderAnnot)
  else baseFolder

/-! One-shot reconciliation pass (sidecar.go syncResources): a ConfigMap
entry whose write fails hits log.Fatalf, which terminates the process
(modelled as none); a Secret entry whose write fails is logged through
slog Error and the loop continues (modelled by counting the logged
errors). -/

/-- The ConfigMap entry loop of syncResources. -/
def syncConfigMapEntries (baseFolder folderAnnot : String) (cm : Resource) :
    List (String × String) → FS → Option FS
  | [], fs => some fs
  | (fileName, data) :: rest, fs =>
    if ¬ FileWriter.IsJSON fileName then
      syncConfigMapEntries baseFolder folderAnnot cm rest fs
    else
      let w := FileWriter.Write (resolveFolder baseFolder folderAnnot cm.annots)
        fileName data fs
      match w.2 with
      | some _ => none
      | none => syncConfigMapEntries baseFolder folderAnnot cm rest w.1

/-- The ConfigMap resource loop of syncResources. -/
def syncConfigMapsOnce (baseFolder folderAnnot : String) :
    List Resource → FS → Option FS
  | [], fs => some fs
  | cm :: rest, fs =>
    match syncConfigMapEntries baseFolder folderAnnot cm cm.data fs with
    | none => none
    | some fs1 => syncConfigMapsOnce baseFolder folderAnnot rest fs1

/-- The Secret entry loop of syncResources; the second component counts
write errors logged through slog Error. -/
def syncSecretEntries (baseFolder folderAnnot : String) (sec : Resource) :
    List (String × String) → FS → FS × Nat
  | [], fs => (fs, 0)
  | (fileName, data) :: rest, fs =>
    if ¬ FileWriter.IsJSON fileName then
      syncSecretEntries baseFolder folderAnnot sec rest fs
    else
      let w := FileWriter.Write (resolveFolder baseFolder folderAnnot sec.annots)
        fileName data fs
      let r := syncSecretEntries baseFolder folderAnnot sec rest w.1
      (r.1, r.2 + (if w.2.isSome then 1 else 0))

/-- The Secret resource loop of syncResources. -/
def syncSecretsOnce (baseFolder folderAnnot : String) :
    List Resource → FS → FS × Nat
  | [], fs => (fs, 0)
  | sec :: rest, fs =>
    let r := syncSecretEntries baseFolder folderAnnot sec sec.data fs
    let r2 := syncSecretsOnce baseFolder folderAnnot rest r.1
    (r2.1, r.2 + r2.2)

/-- SideCar.syncResources: iterate the configured resource kind names;
the configmap branch can terminate the process through log.Fatalf
(none), the secret branch logs write errors and continues. -/
def syncResources (resources : List String) (cms secrets : List Resource)
    (baseFolder folderAnnot : String) (fs : FS) : Option (FS × Nat) :=
  match resources with
  | [] => some (fs, 0)
  | r :: rest =>
    if r = "configmap" then
      match syncConfigMapsOnce baseFolder folderAnnot cms fs with
      | none => none
      | some fs1 => syncResources rest cms secrets baseFolder folderAnnot fs1
    else if r = "secret" then
      let p := syncSecretsOnce baseFolder folderAnnot secrets fs
      match syncResources rest cms secrets baseFolder folderAnnot p.1 with
      | none => none
      | some q => some (q.1, p.2 + q.2)
    else syncResources rest cms secrets baseFolder folderAnnot fs

/-! Event-driven processing (the informer workers of
kubernetes/client.go): the write and remove entry loops discard the
writer result entirely and the Notify call appears only at the end of
the AddFunc handler body. -/

/-- A delivered watch event type. -/
inductive EventType where
  | add
  | update
  | delete
deriving DecidableEq

/-- The entry write loop shared by the AddFunc and UpdateFunc handlers:
the writer result is discarded and iteration always continues. -/
def writeEventEntries (baseFolder folderAnnot : String) (r : Resource) :
    List (String × String) → FS → FS
  | [], fs => fs
  | (fileName, data) :: rest, fs =>
    if ¬ FileWriter.IsJSON fileName then
      writeEventEntries baseFolder folderAnnot r rest fs
    else
      writeEventEntries baseFolder folderAnnot r rest
        (FileWriter.Write (resolveFolder baseFolder folderAnnot r.annots)
          fileName data fs).1

/-- The entry remove loop of the DeleteFunc handlers: contents are not
needed and the writer result is discarded. -/
def removeEventEntries (baseFolder folderAnnot : String) (r : Resource) :
    List (String × String) → FS → FS
  | [], fs => fs
  | (fileName, _) :: rest, fs =>
    if ¬ FileWriter.IsJSON fileName then
      removeEventEntries baseFolder folderAnnot r rest fs
    else
      removeEventEntries baseFolder folderAnnot r rest
        (FileWriter.Remove (resolveFolder baseFolder folderAnnot r.annots)
          fileName fs).1

/-- The ConfigMap event handler installed by configMapInformerWorker:
reject through matchesLabel first; AddFunc writes every accepted entry
and then calls Notify once, UpdateFunc writes without notifying,
DeleteFunc removes without notifying. The second component counts the
Notify calls made while handling the event. -/
def configMapEvent (label labelValue baseFolder folderAnnot : String)
    (ev : EventType) (cm : Resource) (fs : FS) : FS × Nat :=
  if ¬ matchesLabel cm.labels label labelValue then (fs, 0)
  else
    match ev with
    | .add => (writeEventEntries baseFolder folderAnnot cm cm.data fs, 1)
    | .update => (writeEventEntries baseFolder folderAnnot cm cm.data fs, 0)
    | .delete => (removeEventEntries baseFolder folderAnnot cm cm.data fs, 0)

/-- The Secret event handler installed by secretInformerWorker; it has
exactly the shape of the ConfigMap handler after byte-to-string
conversion of the data values. -/
def secretEvent (label labelValue baseFolder folderAnnot : String)
    (ev : EventType) (sec : Resource) (fs : FS) : FS × Nat :=
  if ¬ matchesLabel sec.labels label labelValue then (fs, 0)
  else
    match ev with
    | .add => (writeEventEntries baseFolder folderAnnot sec sec.data fs, 1)
    | .update => (writeEventEntries baseFolder folderAnnot sec sec.data fs, 0)
    | .delete => (removeEventEntries baseFolder folderAnnot sec sec.data fs, 0)

/-- Concrete fixture: a filesystem holding one json file in the working
directory. -/
def fsWithFile : FS := ⟨["."], [("a.json", "x")]⟩

/-- Concrete fixture: a resource carrying a single json entry and no
labels or annotations. -/
def resJson : Resource := ⟨[], [], [("a.json", "x")]⟩

/-! ## Helper lemmas -/

theorem find?_filter_ne_none (l : List (String × String)) (q : String) :
    (l.filter (fun e => e.1 ≠ q)).find? (fun e => e.1 = q) = none := by
  induction l with
  | nil => rfl
  | cons hd tl ih =>
    by_cases h : hd.1 = q
    · simp [List.filter, h, ih]
    · simp [List.filter, List.find?, h, ih]

theorem mkdir_fst_files (fs : FS) (p : String) : (fs.mkdir p).1.files = fs.files := by
  simp only [FS.mkdir]
  split_ifs <;> rfl

theorem mkdir_fst_dirs (fs : FS) (p : String) :
    (fs.mkdir p).1.dirs = fs.dirs ∨ (fs.mkdir p).1.dirs = Clean p :: fs.dirs := by
  simp only [FS.mkdir]
  split_ifs <;> simp

theorem init_files (folder : String) (fs : FS) :
    (FileWriter.Init folder fs).files = fs.files := by
  simp only [FileWriter.Init]
  split_ifs <;> simp [mkdir_fst_files]

theorem init_isFile (folder : String) (fs : FS) (q : String) :
    (FileWriter.Init folder fs).isFile q = fs.isFile q := by
  simp [FS.isFile, init_files]

theorem init_isDir_false (folder : String) (fs : FS) (q : String)
    (h1 : fs.isDir q = false) (h2 : q ≠ Clean folder) :
    (FileWriter.Init folder fs).isDir q = false := by
  simp only [FileWriter.Init]
  split_ifs with h
  all_goals
    first
    | exact h1
    | (rcases mkdir_fst_dirs fs folder with hd | hd <;>
        simp_all [FS.isDir, List.contains_cons])

theorem remove_hit (fs : FS) (p : String) (h : fs.isFile (Clean p) = true) :
    fs.remove p = ({ fs with files := fs.files.filter (fun e => e.1 ≠ Clean p) }, none) := by
  simp [FS.remove, h]

theorem splitChar_ne_nil (sep : Char) (l : List Char) : splitChar sep l ≠ [] := by
  induction l with
  | nil => simp [splitChar]
  | cons c rest ih =>
    simp only [splitChar]
    split_ifs
    · simp
    · split <;> simp

theorem splitChar_append_sep (sep : Char) (cs : List Char) :
    splitChar sep (cs ++ [sep]) = splitChar sep cs ++ [[]] := by
  induction cs with
  | nil => simp [splitChar]
  | cons c rest ih =>
    simp only [List.cons_append, splitChar]
    split_ifs with h
    · simp [ih]
    · simp only [List.append_eq] at *
      rw [ih]
      cases h2 : splitChar sep rest with
      | nil => exact absurd h2 (splitChar_ne_nil sep rest)
      | cons a b => simp

theorem cleanPush_nil (rooted : Bool) (stack : List (List Char)) :
    cleanPush rooted stack [] = stack := by
  simp [cleanPush]

theorem clean_mk_append_slash (a : Char) (t : List Char) :
    Clean ⟨(a :: t) ++ ['/']⟩ = Clean ⟨a :: t⟩ := by
  have hs : splitChar '/' (a :: (t ++ ['/'])) = splitChar '/' (a :: t) ++ [[]] := by
    rw [← List.cons_append]
    exact splitChar_append_sep '/' (a :: t)
  simp [Clean, hs, List.foldl_append, cleanPush_nil]

/-- The loop of matchesLabel scans for an exact key match (when no value
is expected) or an exact key and value match. -/
theorem matchesLabelLoop_iff (K V : String) (l : List (String × String)) :
    matchesLabelLoop K V l = true ↔
      (V = "" ∧ ∃ p ∈ l, p.1 = K) ∨ (∃ p ∈ l, p.1 = K ∧ p.2 = V) := by
  induction l with
  | nil => simp [matchesLabelLoop]
  | cons hd tl ih =>
    obtain ⟨k, v⟩ := hd
    simp only [matchesLabelLoop]
    split_ifs with h1 h2
    · simp only [true_iff]
      exact Or.inl ⟨h1.1, ⟨(k, v), by simp [h1.2]⟩⟩
    · simp only [true_iff]
      exact Or.inr ⟨(k, v), by simp [h2.1, h2.2]⟩
    · rw [ih]
      constructor
      · rintro (⟨hV, p, hp, hpk⟩ | ⟨p, hp, hpk, hpv⟩)
        · exact Or.inl ⟨hV, p, List.mem_cons_of_mem _ hp, hpk⟩
        · exact Or.inr ⟨p, List.mem_cons_of_mem _ hp, hpk, hpv⟩
      · rintro (⟨hV, p, hp, hpk⟩ | ⟨p, hp, hpk, hpv⟩)
        · rcases List.mem_cons.mp hp with rfl | hmem
          · exact absurd ⟨hV, hpk⟩ h1
          · exact Or.inl ⟨hV, p, hmem, hpk⟩
        · rcases List.mem_cons.mp hp with rfl | hmem
          · exact absurd ⟨hpk, hpv⟩ h2
          · exact Or.inr ⟨p, hmem, hpk, hpv⟩

/-! ## Claim theorems -/

/-- C8: for every label mapping and selector pair, matchesLabel returns
true if and only if the labels contain the key with the expected value,
or contain the key at all when the expected value is empty, or
unconditionally when the key is empty; matching is exact string
equality. -/
theorem matches_label_iff (labels : List (String × String)) (K V : String) :
    matchesLabel labels K V = true ↔
      K = "" ∨ (V = "" ∧ ∃ p ∈ labels, p.1 = K) ∨ (∃ p ∈ labels, p.1 = K ∧ p.2 = V) := by
  by_cases hK : K = ""
  · simp [matchesLabel, hK]
  · simp only [matchesLabel, hK, if_false]
    rw [matchesLabelLoop_iff]
    simp [hK]

/-- C7: in watch mode, for every delivered event whose resource the
matcher accepts, the handlers call Notify exactly once for an Add event,
after the entry loop, and never for an Update or a Delete event; this
holds for both the ConfigMap and the Secret handler. -/
theorem notify_once_on_add_only (label labelValue baseFolder folderAnnot : String)
    (ev : EventType) (r : Resource) (fs : FS)
    (h : matchesLabel r.labels label labelValue = true) :
    (configMapEvent label labelValue baseFolder folderAnnot ev r fs).2
        = (if ev = EventType.add then 1 else 0)
      ∧ (secretEvent label labelValue baseFolder folderAnnot ev r fs).2
        = (if ev = EventType.add then 1 else 0) := by
  cases ev <;> simp [configMapEvent, secretEvent, h]

/-- C7 witness: a concrete accepted Add event notifies once, as the
theorem instance at that input states. -/
theorem notify_once_on_add_only_check :
    (configMapEvent "" "" "f" "" EventType.add resJson fsEmpty).2
        = (if EventType.add = EventType.add then 1 else 0)
      ∧ (secretEvent "" "" "f" "" EventType.add resJson fsEmpty).2
        = (if EventType.add = EventType.add then 1 else 0) :=
  notify_once_on_add_only "" "" "f" "" EventType.add resJson fsEmpty (by decide)

/-- C3 counterexample: with an empty username and password, New still
builds a non-nil BasicAuth record, so the request built by Notify
carries an Authorization header with empty credentials, although the
claim requires that no header be sent in this configuration. -/
theorem notifier_header_on_empty_credentials :
    (HTTPNotifier.buildRequest
        (SideCar.newNotifier "" "" "http://example.test" "" "")).authHeader
      = some ("", "") := rfl

/-- C3 amended: the built request carries a Basic Authorization header
exactly when the BasicAuth pointer is non-nil, and New constructs the
notifier with a non-nil pointer for every configuration, so the header
is always attached and carries exactly the configured username and
password, even when they are empty. -/
theorem notifier_auth_header_amended :
    (∀ n : HTTPNotifier,
        (HTTPNotifier.buildRequest n).authHeader
          = n.basicAuth.map (fun a => (a.Username, a.Password)))
      ∧ ∀ u p url m pl,
          (HTTPNotifier.buildRequest (SideCar.newNotifier u p url m pl)).authHeader
            = some (u, p) :=
  ⟨fun _ => rfl, fun _ _ _ _ _ => rfl⟩

/-- C4 counterexample: for the unrecognized method value invalid, Run
logs an invalid-method error and returns without syncing, and no branch
exits with a non-zero status, although the claim requires a non-zero
exit. -/
theorem invalid_method_exits_zero :
    (SideCar.run "invalid").exitsNonZero = false
      ∧ (SideCar.run "invalid").syncsResources = false
      ∧ (SideCar.run "invalid").logsInvalidMethod = true := by decide

/-- C4 amended: for every configured method value whose lowercasing is
none of watch, list and sleep, Run performs no synchronization, does not
wait for changes, does not notify, logs an invalid-method error, and the
process exits normally (exit status zero), not with a non-zero code. -/
theorem invalid_method_behavior_amended (env : String)
    (h1 : lowerString env ≠ "watch") (h2 : lowerString env ≠ "list")
    (h3 : lowerString env ≠ "sleep") :
    SideCar.run (lowerString env) =
      { syncsResources := false, waitsForChanges := false, notifiesOnce := false
        logsInvalidMethod := true, exitsNonZero := false } := by
  simp [SideCar.run, h1, h2, h3]

/-- C4 witness: the amended theorem applied to a concrete unrecognized
method value. -/
theorem invalid_method_behavior_check :
    SideCar.run (lowerString "Bogus") =
      { syncsResources := false, waitsForChanges := false, notifiesOnce := false
        logsInvalidMethod := true, exitsNonZero := false } :=
  invalid_method_behavior_amended "Bogus" (by decide) (by decide) (by decide)

/-- C5 counterexample: the lowercase word all is not recognized as the
cluster-wide marker; it is parsed as a single namespace name and the
session is scoped to a namespace literally named all. -/
theorem lowercase_all_is_namespace_name :
    parseNamespaces "all" = ["all"]
      ∧ listScopeOf (parseNamespaces "all") = ListScope.perNamespace ["all"] := by
  decide

/-- C5 amended: the empty value and the exact uppercase word ALL select
the cluster-wide scope (a single unscoped list or watch); every other
value, including lowercase all, is split on commas and each part is
treated as a namespace name. -/
theorem namespace_scope_amended (env : String) :
    ((env = "" ∨ env = "ALL") →
        parseNamespaces env = []
          ∧ listScopeOf (parseNamespaces env) = ListScope.clusterWide)
      ∧ (¬(env = "" ∨ env = "ALL") →
        parseNamespaces env = (splitChar ',' env.data).map (fun cs => (⟨cs⟩ : String))) := by
  constructor
  · intro h
    simp [parseNamespaces, h, listScopeOf]
  · intro h
    simp [parseNamespaces, h]

/-- C5 witness: the amended theorem applied to the uppercase marker and
to a comma-separated list. -/
theorem namespace_scope_check :
    (parseNamespaces "ALL" = []
        ∧ listScopeOf (parseNamespaces "ALL") = ListScope.clusterWide)
      ∧ parseNamespaces "default,prod"
        = (splitChar ',' "default,prod".data).map (fun cs => (⟨cs⟩ : String)) :=
  ⟨(namespace_scope_amended "ALL").1 (Or.inr rfl),
   (namespace_scope_amended "default,prod").2 (by decide)⟩

/-- C1 counterexample: removing a file that does not exist returns a
not-exist error, although the claim requires success. -/
theorem remove_missing_file_returns_error :
    (FileWriter.Remove "." "missing.json" fsEmpty).2 = some IOErr.enoent := by decide

/-- C1 amended: Remove deletes the file and succeeds when the target
path names an existing file; when the target path does not exist (and
does not coincide with the folder that Init may have just created),
Remove returns a not-exist error instead of succeeding. -/
theorem remove_file_behavior_amended (fs : FS) (folder fileName : String) :
    (fs.isFile (Clean (pathJoin folder fileName)) = true →
        (FileWriter.Remove folder fileName fs).2 = none
          ∧ (FileWriter.Remove folder fileName fs).1.isFile
              (Clean (pathJoin folder fileName)) = false)
      ∧ (fs.isFile (Clean (pathJoin folder fileName)) = false →
          fs.isDir (Clean (pathJoin folder fileName)) = false →
          Clean (pathJoin folder fileName) ≠ Clean folder →
          (FileWriter.Remove folder fileName fs).2 = some IOErr.enoent) := by
  constructor
  · intro hf
    have h1 : (FileWriter.Init folder fs).isFile (Clean (pathJoin folder fileName)) = true := by
      rw [init_isFile]
      exact hf
    simp only [FileWriter.Remove]
    rw [remove_hit _ _ h1]
    refine ⟨rfl, ?_⟩
    simp [FS.isFile, find?_filter_ne_none]
  · intro hf hd hne
    have h1 : (FileWriter.Init folder fs).isFile (Clean (pathJoin folder fileName)) = false := by
      rw [init_isFile]
      exact hf
    have h2 : (FileWriter.Init folder fs).isDir (Clean (pathJoin folder fileName)) = false :=
      init_isDir_false folder fs _ hd hne
    simp [FileWriter.Remove, FS.remove, h1, h2]

/-- C1 witness: the amended theorem applied to a filesystem with one
file, once at the existing file and once at a missing one. -/
theorem remove_file_behavior_check :
    ((FileWriter.Remove "." "a.json" fsWithFile).2 = none
        ∧ (FileWriter.Remove "." "a.json" fsWithFile).1.isFile
            (Clean (pathJoin "." "a.json")) = false)
      ∧ (FileWriter.Remove "." "b.json" fsWithFile).2 = some IOErr.enoent :=
  ⟨(remove_file_behavior_amended fsWithFile "." "a.json").1 (by decide),
   (remove_file_behavior_amended fsWithFile "." "b.json").2 (by decide) (by decide) (by decide)⟩

/-- C2: Init uses a one-level mkdir whose error is discarded, so writing
into a folder whose parent directories are missing fails with a
not-exist error and changes nothing, contradicting the nested-directory
expectation (the folder and file of the repository test
TestFileWriter_NestedDirectory are used as the failing input). -/
theorem write_nested_folder_fails :
    (FileWriter.Write "test-nested/subfolder/deep" "test.txt" "content" fsEmpty).2
        = some IOErr.enoent
      ∧ (FileWriter.Write "test-nested/subfolder/deep" "test.txt" "content" fsEmpty).1
        = fsEmpty := by decide

theorem remove_enoent (fs : FS) (p : String)
    (h1 : fs.isFile (Clean p) = false) (h2 : fs.isDir (Clean p) = false) :
    fs.remove p = (fs, some IOErr.enoent) := by
  simp [FS.remove, h1, h2]

/-- C10: when the folder does not exist but its parent does, Remove of a
missing file first creates the folder (one mkdir level) as a side effect
and then returns the not-exist error of the removal itself. -/
theorem remove_creates_folder_side_effect (fs : FS) (folder fileName : String)
    (hne : fs.statExists folder = false)
    (hpf : fs.isFile (pathDir (Clean folder)) = false)
    (hpd : fs.isDir (pathDir (Clean folder)) = true)
    (hq1 : fs.isFile (Clean (pathJoin folder fileName)) = false)
    (hq2 : fs.isDir (Clean (pathJoin folder fileName)) = false)
    (hqc : Clean (pathJoin folder fileName) ≠ Clean folder) :
    (FileWriter.Remove folder fileName fs).1.isDir (Clean folder) = true
      ∧ (FileWriter.Remove folder fileName fs).2 = some IOErr.enoent := by
  have hboth := hne
  simp only [FS.statExists, Bool.or_eq_false_iff] at hboth
  have hmk : fs.mkdir folder = ({ fs with dirs := Clean folder :: fs.dirs }, none) := by
    simp [FS.mkdir, hboth.1, hboth.2, hpf, hpd]
  have hinit : FileWriter.Init folder fs = { fs with dirs := Clean folder :: fs.dirs } := by
    simp [FileWriter.Init, hne, hmk]
  have h1 : ({ fs with dirs := Clean folder :: fs.dirs } : FS).isFile
      (Clean (pathJoin folder fileName)) = false := hq1
  have h2 : ({ fs with dirs := Clean folder :: fs.dirs } : FS).isDir
      (Clean (pathJoin folder fileName)) = false := by
    simp [FS.isDir, List.contains_cons] at hq2 ⊢
    exact ⟨hqc, hq2⟩
  have hrm := remove_enoent ({ fs with dirs := Clean folder :: fs.dirs })
    (pathJoin folder fileName) h1 h2
  simp only [FileWriter.Remove, hinit, hrm]
  simp [FS.isDir, List.contains_cons]

/-- C10 witness: the theorem applied to an empty filesystem and a folder
directly under the working directory. -/
theorem remove_creates_folder_side_effect_check :
    (FileWriter.Remove "newdir" "x.json" fsEmpty).1.isDir (Clean "newdir") = true
      ∧ (FileWriter.Remove "newdir" "x.json" fsEmpty).2 = some IOErr.enoent :=
  remove_creates_folder_side_effect fsEmpty "newdir" "x.json"
    (by decide) (by decide) (by decide) (by decide) (by decide) (by decide)

/-- C9 counterexample: resolving with an absent annotation does not
return the base folder unchanged in general, because Go path joining
cleans the result; the trailing-slash base is altered. -/
theorem resolve_unclean_base_example :
    resolveFolder "a/" "k" [] = "a" ∧ ("a" : String) ≠ "a/" := by decide

/-- C9 amended: with an empty annotation key the base folder is returned
unchanged; with the key present the result is the Go path join of the
base folder and the annotation value, so an absent annotation yields the
cleaned base folder, which equals the base folder exactly when it is
already a cleaned path, and a present annotation value sub yields the
slash concatenation exactly when that concatenation is already a cleaned
path. -/
theorem resolve_folder_amended :
    (∀ baseFolder annots, resolveFolder baseFolder "" annots = baseFolder)
      ∧ (∀ baseFolder sub,
          resolveFolder baseFolder "k" [("k", sub)] = pathJoin baseFolder sub)
      ∧ (∀ baseFolder sub, baseFolder ≠ "" →
          Clean (baseFolder ++ "/" ++ sub) = baseFolder ++ "/" ++ sub →
          resolveFolder baseFolder "k" [("k", sub)] = baseFolder ++ "/" ++ sub)
      ∧ (∀ baseFolder key, key ≠ "" → baseFolder ≠ "" →
          Clean baseFolder = baseFolder →
          resolveFolder baseFolder key [] = baseFolder) := by
  have part1 : ∀ baseFolder annots, resolveFolder baseFolder "" annots = baseFolder := by
    intro b a
    simp [resolveFolder]
  have part2 : ∀ baseFolder sub,
      resolveFolder baseFolder "k" [("k", sub)] = pathJoin baseFolder sub := by
    intro b s
    simp only [resolveFolder]
    rw [if_pos (show ("k" : String) ≠ "" from by decide)]
    rfl
  refine ⟨part1, part2, ?_, ?_⟩
  · intro b s hb hcl
    rw [part2]
    have hdata : (b ++ "/" ++ s) = (⟨b.data ++ '/' :: s.data⟩ : String) := by
      obtain ⟨bl⟩ := b
      obtain ⟨sl⟩ := s
      show (⟨(bl ++ ['/']) ++ sl⟩ : String) = ⟨bl ++ '/' :: sl⟩
      rw [List.append_assoc]
      rfl
    simp only [pathJoin]
    rw [if_neg (fun hand => hb hand.1), if_neg hb, ← hdata]
    exact hcl
  · intro b k hk hb hcb
    simp only [resolveFolder]
    rw [if_pos hk]
    have hl : lookupAnnot [] k = "" := rfl
    rw [hl]
    simp only [pathJoin]
    rw [if_neg (fun hand => hb hand.1), if_neg hb]
    obtain ⟨bl⟩ := b
    cases bl with
    | nil => exact absurd rfl hb
    | cons a t =>
      show Clean ⟨(a :: t) ++ ['/']⟩ = (⟨a :: t⟩ : String)
      rw [clean_mk_append_slash a t]
      exact hcb

/-- C9 witness: the amended theorem applied to concrete cleaned paths. -/
theorem resolve_folder_check :
    resolveFolder "/etc/cfg" "" [("k", "sub")] = "/etc/cfg"
      ∧ resolveFolder "/etc/cfg" "k" [("k", "sub")] = pathJoin "/etc/cfg" "sub"
      ∧ resolveFolder "/etc/cfg" "k" [("k", "sub")] = "/etc/cfg" ++ "/" ++ "sub"
      ∧ resolveFolder "/data" "k" [] = "/data" :=
  ⟨resolve_folder_amended.1 "/etc/cfg" [("k", "sub")],
   resolve_folder_amended.2.1 "/etc/cfg" "sub",
   resolve_folder_amended.2.2.1 "/etc/cfg" "sub" (by decide) (by decide),
   resolve_folder_amended.2.2.2 "/data" "k" (by decide) (by decide) (by decide)⟩

/-- C6 counterexample: a one-shot pass over a single Secret whose only
entry write fails (its target folder has no existing parent) completes
with one logged error instead of aborting, so a write error during the
one-shot pass is not fatal in general. -/
theorem secret_write_error_not_fatal :
    syncResources ["secret"] [] [resJson] "b/c" "" fsEmpty = some (fsEmpty, 1) := by
  decide

/-- C6 amended: during the one-shot pass a ConfigMap entry whose write
errors terminates the process (the entry loop, the resource loop and the
kind loop all yield none), while a Secret entry whose write errors is
counted as logged and the loop continues with the remaining entries;
during event-driven processing the writer result is discarded and the
entry loop always continues. -/
theorem write_error_policy_amended :
    (∀ baseFolder folderAnnot cm fileName data rest fs,
        FileWriter.IsJSON fileName = true →
        (FileWriter.Write (resolveFolder baseFolder folderAnnot (Resource.annots cm))
            fileName data fs).2 ≠ none →
        syncConfigMapEntries baseFolder folderAnnot cm ((fileName, data) :: rest) fs = none)
      ∧ (∀ baseFolder folderAnnot cm restCms fs,
          syncConfigMapEntries baseFolder folderAnnot cm (Resource.data cm) fs = none →
          syncConfigMapsOnce baseFolder folderAnnot (cm :: restCms) fs = none)
      ∧ (∀ restKinds cms secrets baseFolder folderAnnot fs,
          syncConfigMapsOnce baseFolder folderAnnot cms fs = none →
          syncResources ("configmap" :: restKinds) cms secrets baseFolder folderAnnot fs
            = none)
      ∧ (∀ baseFolder folderAnnot sec fileName data rest fs,
          FileWriter.IsJSON fileName = true →
          (FileWriter.Write (resolveFolder baseFolder folderAnnot (Resource.annots sec))
              fileName data fs).2.isSome = true →
          syncSecretEntries baseFolder folderAnnot sec ((fileName, data) :: rest) fs
            = ((syncSecretEntries baseFolder folderAnnot sec rest
                  (FileWriter.Write (resolveFolder baseFolder folderAnnot
                    (Resource.annots sec)) fileName data fs).1).1,
               (syncSecretEntries baseFolder folderAnnot sec rest
                  (FileWriter.Write (resolveFolder baseFolder folderAnnot
                    (Resource.annots sec)) fileName data fs).1).2 + 1))
      ∧ (∀ baseFolder folderAnnot r fileName data rest fs,
          FileWriter.IsJSON fileName = true →
          writeEventEntries baseFolder folderAnnot r ((fileName, data) :: rest) fs
            = writeEventEntries baseFolder folderAnnot r rest
                (FileWriter.Write (resolveFolder baseFolder folderAnnot
                  (Resource.annots r)) fileName data fs).1) := by
  refine ⟨?_, ?_, ?_, ?_, ?_⟩
  · intro bf fa cm fn d rest fs hj hw
    simp only [syncConfigMapEntries, hj, Bool.not_true, Bool.false_eq_true, if_false]
    cases hcase : (FileWriter.Write (resolveFolder bf fa (Resource.annots cm)) fn d fs).2 with
    | none => exact absurd hcase hw
    | some e => simp [hcase]
  · intro bf fa cm restCms fs h
    simp [syncConfigMapsOnce, h]
  · intro restKinds cms secrets bf fa fs h
    simp [syncResources, h]
  · intro bf fa sec fn d rest fs hj hw
    simp only [syncSecretEntries, hj, Bool.not_true, Bool.false_eq_true, if_false]
    simp [hw]
  · intro bf fa r fn d rest fs hj
    simp [writeEventEntries, hj]

/-- C6 witness: the amended theorem applied to concrete failing writes
(the target folder has no existing parent directory). -/
theorem write_error_policy_check :
    syncConfigMapEntries "b/c" "" resJson [("a.json", "x")] fsEmpty = none
      ∧ syncConfigMapsOnce "b/c" "" [resJson] fsEmpty = none
      ∧ syncResources ["configmap"] [resJson] [] "b/c" "" fsEmpty = none
      ∧ syncSecretEntries "b/c" "" resJson [("a.json", "x")] fsEmpty
          = ((syncSecretEntries "b/c" "" resJson []
                (FileWriter.Write (resolveFolder "b/c" "" (Resource.annots resJson))
                  "a.json" "x" fsEmpty).1).1,
             (syncSecretEntries "b/c" "" resJson []
                (FileWriter.Write (resolveFolder "b/c" "" (Resource.annots resJson))
                  "a.json" "x" fsEmpty).1).2 + 1)
      ∧ writeEventEntries "b/c" "" resJson [("a.json", "x")] fsEmpty
          = writeEventEntries "b/c" "" resJson []
              (FileWriter.Write (resolveFolder "b/c" "" (Resource.annots resJson))
                "a.json" "x" fsEmpty).1 :=
  ⟨write_error_policy_amended.1 "b/c" "" resJson "a.json" "x" [] fsEmpty
      (by decide) (by decide),
   write_error_policy_amended.2.1 "b/c" "" resJson [] fsEmpty (by decide),
   write_error_policy_amended.2.2.1 [] [resJson] [] "b/c" "" fsEmpty (by decide),
   write_error_policy_amended.2.2.2.1 "b/c" "" resJson "a.json" "x" [] fsEmpty
      (by decide) (by decide),
   write_error_policy_amended.2.2.2.2 "b/c" "" resJson "a.json" "x" [] fsEmpty
      (by decide)⟩
